import Mathlib

/-!
Shallow embedding of the `text-readability-ts` core (`src/index.ts`).

JavaScript numbers are modeled as `Option ℚ`: `some q` is a finite value with
exact rational arithmetic, `none` stands for the non-finite values (`NaN` and
`±Infinity`, collapsed into one point).  The collapse is exact for this program:
the only way an infinity arises in the source is a division `a / 0` with
`a ≠ 0`, and every such value flows directly into `Math.legacyRound`, which
maps every non-finite input to `NaN` (because `Math.copySign(0.5, y)` computes
`0.5 * (y / Math.abs(y))`, which is `NaN` for `y` non-finite as well as for
`y = 0`).  Comparisons mirror JS semantics: any comparison with a non-finite
left or right operand is `false` (true for `NaN`; infinities never reach a
comparison in this program).

External collaborators (the `syllable` package, `pluralize`, and the
`easy_words` dictionary data) are out of scope of the repository and are
modeled as an explicit `Externals` record of opaque parameters, per the spec
("OUT OF SCOPE (treated as external collaborators)").
-/

namespace TextReadability

/-- A JavaScript number: `some q` is a finite value, `none` is non-finite
(`NaN`, and the `±Infinity` values that this program immediately pipes into
`legacyRound`, turning them into `NaN`). -/
abbrev JSNum := Option ℚ

/-- Embed a rational literal as a JS number. -/
def jn (q : ℚ) : JSNum := some q

/-- JS addition: `NaN` propagates. -/
def jadd : JSNum → JSNum → JSNum
  | some a, some b => some (a + b)
  | _, _ => none

/-- JS subtraction: `NaN` propagates. -/
def jsub : JSNum → JSNum → JSNum
  | some a, some b => some (a - b)
  | _, _ => none

/-- JS multiplication: `NaN` propagates. -/
def jmul : JSNum → JSNum → JSNum
  | some a, some b => some (a * b)
  | _, _ => none

/-- JS division: `NaN` propagates, and division by zero is non-finite
(`0/0` is `NaN`; `a/0` with `a ≠ 0` is an infinity, which this program always
feeds into `legacyRound` where it becomes `NaN`, so both are `none` here). -/
def jdiv : JSNum → JSNum → JSNum
  | some a, some b => if b = 0 then none else some (a / b)
  | _, _ => none

/-- Model of `Math.abs`. -/
def jabs : JSNum → JSNum
  | some a => some |a|
  | none => none

/-- Model of `Math.floor` (`NaN` maps to `NaN`). -/
def jfloor : JSNum → JSNum
  | some a => some (⌊a⌋ : ℚ)
  | none => none

/-- Model of `Math.ceil` (`NaN` maps to `NaN`). -/
def jceil : JSNum → JSNum
  | some a => some (⌈a⌉ : ℚ)
  | none => none

/-- JS `<=` comparison: `false` whenever an operand is non-finite
(exact for `NaN`; infinities never reach a comparison in this program). -/
def jleB : JSNum → JSNum → Bool
  | some a, some b => a ≤ b
  | _, _ => false

/-- JS `<` comparison: `false` whenever an operand is non-finite. -/
def jltB : JSNum → JSNum → Bool
  | some a, some b => a < b
  | _, _ => false

/-- Source `Math.copySign = (x, y) => x * (y / Math.abs(y))`
(lines 16-18 of `src/index.ts`).  Note `copySign(x, 0)` is `x * (0/0)`,
i.e. `NaN`. -/
def copySign (x y : JSNum) : JSNum := jmul x (jdiv y (jabs y))

/-- Source `Math.legacyRound = (number, points = 0) =>
Math.floor((number * p) + Math.copySign(0.5, number)) / p` with
`p = 10 ** points` (lines 20-24).  The default `points` is `0`; callers in
this file always pass the precision explicitly. -/
def legacyRound (number : JSNum) (points : ℕ) : JSNum :=
  let p : ℚ := 10 ^ points
  jdiv (jfloor (jadd (jmul number (some p)) (copySign (some (1/2)) number))) (some p)

/-- Source pattern `!isNaN(returnVal) ? returnVal : 0.0` used by the metric
primitives and several formulas. -/
def nanGuard : JSNum → JSNum
  | none => some 0
  | some a => some a

/-- The character class of `punctuationRE` (line 6):
`[ -⁯⸀-⹿\\'!"#$%&()*+,\-./:;<=>?@[\]^_`{|}~]`.
The ASCII members are listed by code point. -/
def isPunctChar (c : Char) : Bool :=
  (0x2000 ≤ c.toNat && c.toNat ≤ 0x206F) ||
  (0x2E00 ≤ c.toNat && c.toNat ≤ 0x2E7F) ||
  [0x5C, 0x27, 0x21, 0x22, 0x23, 0x24, 0x25, 0x26, 0x28, 0x29, 0x2A, 0x2B,
   0x2C, 0x2D, 0x2E, 0x2F, 0x3A, 0x3B, 0x3C, 0x3D, 0x3E, 0x3F, 0x40, 0x5B,
   0x5D, 0x5E, 0x5F, 0x60, 0x7B, 0x7C, 0x7D, 0x7E].contains c.toNat

/-- Source `removePunctuation(text)`: `text.replace(punctuationRE, '')`
(lines 71-74). -/
def removePunctuation (text : String) : String :=
  String.mk (text.data.filter (fun c => !isPunctChar c))

/-- The word-delimiter class of the split regex `/,| |\n|\r/`
(comma, space, newline, carriage return). -/
def isSplitDelim (c : Char) : Bool :=
  [0x2C, 0x20, 0x0A, 0x0D].contains c.toNat

/-- Split a character list at every delimiter character, keeping empty
segments (the semantics of JS `String.prototype.split` on a
single-character-alternation regex). -/
def splitOnPred (p : Char → Bool) : List Char → List (List Char)
  | [] => [[]]
  | c :: cs =>
    if p c then [] :: splitOnPred p cs
    else
      match splitOnPred p cs with
      | [] => [[c]]
      | s :: ss => (c :: s) :: ss

/-- Source `Readability.split(text)`:
`text.split(/,| |\n|\r/g).filter(n => n)` (lines 81-85). -/
def splitWords (text : String) : List String :=
  ((splitOnPred isSplitDelim text.data).map String.mk).filter (fun s => s ≠ "")

/-- Source `lexiconCount(text, removePunctuation = true)` (lines 93-98):
optionally strip punctuation, then split on `/,| |\n|\r/` and count non-empty
tokens.  The default of the second argument in the source is `true`; callers
here always pass it explicitly. -/
def lexiconCount (text : String) (rp : Bool) : ℕ :=
  let t := if rp then removePunctuation text else text
  (((splitOnPred isSplitDelim t.data).map String.mk).filter (fun s => s ≠ "")).length

/-- Source `charCount(text, ignoreSpaces = true)` (lines 50-53): length after
removing space characters (`/ /g` removes only the plain space). -/
def charCount (text : String) (ignoreSpaces : Bool) : ℕ :=
  (if ignoreSpaces then text.data.filter (fun c => c.toNat ≠ 0x20) else text.data).length

/-- Source `letterCount(text, ignoreSpaces = true)` (lines 61-64): remove
spaces, then punctuation, then take the length. -/
def letterCount (text : String) (ignoreSpaces : Bool) : ℕ :=
  (removePunctuation
    (String.mk (if ignoreSpaces then text.data.filter (fun c => c.toNat ≠ 0x20) else text.data))).length

/-- The external collaborators of the core (spec section 1 and 6): the
syllable estimator, the singular/plural normalizer (`pluralize`), and the
easy-word dictionary membership test.  All three live outside the repository
(the `syllable` and `pluralize` packages and the `data/easy_words` list), so
they are opaque parameters of the embedding. -/
structure Externals where
  syl : String → ℕ
  sing : String → String
  dict : String → Bool

/-- JS `toLocaleLowerCase('en-US')`, modeled as ASCII lower-casing (all
concrete inputs used in the theorems below are ASCII). -/
def jsLower (s : String) : String := String.mk (s.data.map Char.toLower)

/-- JS `String.prototype.endsWith`. -/
def endsWithStr (w suf : String) : Bool := List.isSuffixOf suf.data w.data

/-- JS `String.prototype.slice(0, -k)`: drop the last `k` characters. -/
def dropRightStr (w : String) (k : ℕ) : String :=
  String.mk (w.data.take (w.data.length - k))

/-- Source `syllableCount(text, lang = 'en-US')` (lines 106-113): lower-case,
strip punctuation, return `0` for the empty string, otherwise delegate to the
external `syllable` package. -/
def syllableCount (E : Externals) (text : String) : ℕ :=
  let t := removePunctuation (jsLower text)
  if t = "" then 0 else E.syl t

/-- Sentence-terminator class `[.?!]` of the sentence split regex. -/
def isSentEnd (c : Char) : Bool := [0x2E, 0x3F, 0x21].contains c.toNat

/-- Closing-quote/bracket class `['")\]]` of the sentence split regex. -/
def isSentQuote (c : Char) : Bool := [0x27, 0x22, 0x29, 0x5D].contains c.toNat

/-- Separator class `[ |\n]` of the sentence split regex: space, the literal
`|` character, and newline. -/
def isSentSep (c : Char) : Bool := [0x20, 0x7C, 0x0A].contains c.toNat

/-- Uppercase-letter lookahead `(?=[A-Z])` of the sentence split regex. -/
def isUpperAZ (c : Char) : Bool := 0x41 ≤ c.toNat && c.toNat ≤ 0x5A

/-- Count the leading characters satisfying `p`; return the count and the
rest of the list. -/
def countWhile (p : Char → Bool) : List Char → ℕ × List Char
  | [] => (0, [])
  | c :: cs =>
    if p c then
      let r := countWhile p cs
      (r.1 + 1, r.2)
    else (0, c :: cs)

/-- Match the sentence-boundary regex `/ *[.?!]['")\]]*[ |\n](?=[A-Z])/` at
the head of the list: greedy space run, one terminator, greedy
closing-quote run, one separator, and a non-consumed uppercase lookahead.
Returns the number of consumed characters (always at least 2).  Greedy
matching without backtracking is exact here because the space run is
homogeneous and the three character classes are pairwise disjoint. -/
def matchBoundary (cs : List Char) : Option ℕ :=
  let r1 := countWhile (fun c => c.toNat = 0x20) cs
  match r1.2 with
  | c :: rest =>
    if isSentEnd c then
      let r2 := countWhile isSentQuote rest
      match r2.2 with
      | d :: rest2 =>
        if isSentSep d then
          match rest2 with
          | e :: _ => if isUpperAZ e then some (r1.1 + 1 + r2.1 + 1) else none
          | [] => none
        else none
      | [] => none
    else none
  | [] => none

/-- Fuel-indexed worker for the sentence split; the fuel is an upper bound on
the number of characters still to scan (each step consumes at least one). -/
def splitSentAux : ℕ → List Char → List (List Char)
  | 0, cs => [cs]
  | _ + 1, [] => [[]]
  | fuel + 1, c :: cs =>
    match matchBoundary (c :: cs) with
    | some n => [] :: splitSentAux fuel (List.drop n (c :: cs))
    | none =>
      match splitSentAux fuel cs with
      | [] => [[c]]
      | s :: ss => (c :: s) :: ss

/-- Source `text.split(/ *[.?!]['")\]]*[ |\n](?=[A-Z])/g)` (line 122): split
the text at every sentence boundary, keeping empty segments. -/
def splitSentences (text : String) : List String :=
  (splitSentAux (text.data.length + 1) text.data).map String.mk

/-- Source `sentenceCount(text)` (lines 120-128): segments whose word count is
at most 2 are ignored; the result is floored at 1 (`validSentences > 1 ?
validSentences : 1`). -/
def sentenceCount (text : String) : ℕ :=
  let sentences := splitSentences text
  let ignoreCount := (sentences.filter (fun s => lexiconCount s true ≤ 2)).length
  let validSentences := sentences.length - ignoreCount
  if validSentences > 1 then validSentences else 1

/-- Source `averageSentenceLength(text)` (lines 135-139):
`legacyRound(lexiconCount / sentenceCount, 1)`, `NaN`-guarded to `0.0`. -/
def averageSentenceLength (text : String) : JSNum :=
  nanGuard (legacyRound (jdiv (jn (lexiconCount text true)) (jn (sentenceCount text))) 1)

/-- Source `averageSyllablePerWord(text)` (lines 146-152). -/
def averageSyllablePerWord (E : Externals) (text : String) : JSNum :=
  nanGuard (legacyRound (jdiv (jn (syllableCount E text)) (jn (lexiconCount text true))) 1)

/-- Source `averageCharacterPerWord(text)` (lines 159-163). -/
def averageCharacterPerWord (text : String) : JSNum :=
  nanGuard (legacyRound (jdiv (jn (charCount text true)) (jn (lexiconCount text true))) 2)

/-- Source `averageLetterPerWord(text)` (lines 170-174). -/
def averageLetterPerWord (text : String) : JSNum :=
  nanGuard (legacyRound (jdiv (jn (letterCount text true)) (jn (lexiconCount text true))) 2)

/-- Source `averageSentencePerWord(text)` (lines 181-185). -/
def averageSentencePerWord (text : String) : JSNum :=
  nanGuard (legacyRound (jdiv (jn (sentenceCount text)) (jn (lexiconCount text true))) 2)

/-- Source `fleschReadingEase(text)` (lines 192-198):
`legacyRound(206.835 - 1.015*ASL - 84.6*ASW, 2)`.  Note there is no
`isNaN` guard on the return value in the source. -/
def fleschReadingEase (E : Externals) (text : String) : JSNum :=
  let sentenceLength := averageSentenceLength text
  let syllablesPerWord := averageSyllablePerWord E text
  legacyRound
    (jsub (jsub (jn 206.835) (jmul (jn 1.015) sentenceLength)) (jmul (jn 84.6) syllablesPerWord)) 2

/-- Source `fleschReadingEaseToGrade(score)` (lines 200-209): descending
half-open interval lookup.  A `NaN` score fails every comparison and falls
through to `16`, as in JS. -/
def fleschReadingEaseToGrade (score : JSNum) : ℚ :=
  if jltB score (jn 100) && jleB (jn 90) score then 5
  else if jltB score (jn 90) && jleB (jn 80) score then 6
  else if jltB score (jn 80) && jleB (jn 70) score then 7
  else if jltB score (jn 70) && jleB (jn 60) score then 8.5
  else if jltB score (jn 60) && jleB (jn 50) score then 11
  else if jltB score (jn 50) && jleB (jn 40) score then 13
  else if jltB score (jn 40) && jleB (jn 30) score then 15
  else 16

/-- Source `fleschKincaidGrade(text)` (lines 215-221):
`legacyRound(0.39*ASL + 11.8*ASW - 15.59, 1)` (no `isNaN` guard). -/
def fleschKincaidGrade (E : Externals) (text : String) : JSNum :=
  let sentenceLength := averageSentenceLength text
  let syllablePerWord := averageSyllablePerWord E text
  legacyRound
    (jsub (jadd (jmul (jn 0.39) sentenceLength) (jmul (jn 11.8) syllablePerWord)) (jn 15.59)) 1

/-- Source `polySyllableCount(text)` (lines 228-236): words (by the general
split) whose syllable count is at least 3. -/
def polySyllableCount (E : Externals) (text : String) : ℕ :=
  ((splitWords text).filter (fun word => 3 ≤ syllableCount E word)).length

/-- The value `legacyRound(1.043 * (30 * (p / s)) ** 0.5 + 3.1291, 1)` of the
SMOG formula (line 247), computed exactly.  For `s > 0` the argument is
nonnegative and the whole expression is at least `3.1291 > 0`, so
`copySign(0.5, ·)` contributes `+1/2` and the rounding is
`⌊10.43*sqrt(30*p/s) + 31.791⌋ / 10`.  With `M = 1043^2 * 30 * p * s` one has
`10.43*sqrt(30*p/s) = sqrt(M)/(100*s)*10*10 = 10*sqrt(M)/(100*s)` scaled to the
common denominator `1000*s`, hence the floor equals
`(⌊sqrt(100*M)⌋ + 31791*s) / (1000*s)` by the integer-part laws
`⌊(x+c)/m⌋ = ⌊(⌊x⌋+c)/m⌋` and `⌊10*sqrt M⌋ = ⌊sqrt (100*M)⌋ = Nat.sqrt (100*M)`.
The lemma `smogVal_eq_floor` below verifies this against `Real.sqrt`. -/
def smogVal (p s : ℕ) : ℚ :=
  ((Nat.sqrt (100 * (1087849 * 30 * p * s)) + 31791 * s) / (1000 * s) : ℕ) / 10

/-- Source `smogIndex(text)` (lines 243-252): the formula applies only when
`sentenceCount >= 3`, otherwise `0.0`.  The rounded value is never `NaN`
(the expression is at least `3.1291`), so the source's `isNaN` guard is the
identity here. -/
def smogIndex (E : Externals) (text : String) : JSNum :=
  let sentences := sentenceCount text
  if 3 ≤ sentences then some (smogVal (polySyllableCount E text) sentences)
  else some 0

/-- Source `colemanLiauIndex(text)` (lines 259-264): note the absence of an
`isNaN` guard on the final `legacyRound(coleman, 2)`. -/
def colemanLiauIndex (text : String) : JSNum :=
  let letters := legacyRound (jmul (averageLetterPerWord text) (jn 100)) 2
  let sentences := legacyRound (jmul (averageSentencePerWord text) (jn 100)) 2
  legacyRound (jsub (jsub (jmul (jn 0.058) letters) (jmul (jn 0.296) sentences)) (jn 15.8)) 2

/-- Source `automatedReadabilityIndex(text)` (lines 271-285). -/
def automatedReadabilityIndex (text : String) : JSNum :=
  let characters := charCount text true
  let words := lexiconCount text true
  let sentences := sentenceCount text
  let acpw := jdiv (jn characters) (jn words)
  let awps := jdiv (jn words) (jn sentences)
  nanGuard (legacyRound
    (jsub (jadd (jmul (jn 4.71) (legacyRound acpw 2)) (jmul (jn 0.5) (legacyRound awps 2)))
      (jn 21.43)) 1)

/-- Source `linsearWriteFormula(text)` (lines 292-309): classify the first 100
words by syllable count, then divide by the sentence count of the re-joined
truncated text. -/
def linsearWriteFormula (E : Externals) (text : String) : JSNum :=
  let textList := (splitWords text).take 100
  let easyWord := (textList.filter (fun word => syllableCount E word < 3)).length
  let difficultWord := (textList.filter (fun word => ¬ syllableCount E word < 3)).length
  let joined := String.intercalate " " textList
  let number := jdiv (jn (easyWord * 1 + difficultWord * 3)) (jn (sentenceCount joined))
  let ret := if jleB number (jn 20) then jdiv (jsub number (jn 2)) (jn 2)
             else jdiv number (jn 2)
  nanGuard (legacyRound ret 1)

/-- Source `presentTense(word)` (lines 320-340): words shorter than 6
characters pass through; `"ed"` words drop `"d"` when the result is in the
dictionary, otherwise drop `"ed"`; `"ing"` words become stem+`"e"` when that
is in the dictionary, otherwise the bare stem. -/
def presentTense (dict : String → Bool) (word : String) : String :=
  if word.length < 6 then word
  else if endsWithStr word "ed" then
    if dict (dropRightStr word 1) then dropRightStr word 1
    else dropRightStr word 2
  else if endsWithStr word "ing" then
    let suffixIngToE := dropRightStr word 3 ++ "e"
    if dict suffixIngToE then suffixIngToE
    else dropRightStr word 3
  else word

/-- The "difficult word" token class `[\w=‘’]+` of line 349 (`\w` is ASCII
word characters; the two curly quotes are U+2018 and U+2019). -/
def isDiffWordChar (c : Char) : Bool :=
  c.isAlphanum || c.toNat = 0x5F || c.toNat = 0x3D || c.toNat = 0x2018 || c.toNat = 0x2019

/-- Source `text.match(/[\w=‘’]+/g)`: the maximal runs of token characters (the
empty match list of the source corresponds to the empty list here). -/
def diffWordTokens (text : String) : List String :=
  (((splitOnPred (fun c => !isDiffWordChar c) text.data).map String.mk).filter (fun s => s ≠ ""))

/-- One step of the `difficultWords` loop (lines 353-360): normalize via
`presentTense(pluralize(word.toLocaleLowerCase()))` and add the original
surface form to the set when the normalized form is not easy and the original
token has at least `syllableThreshold` syllables.  The JS `Set` is modeled as
an insertion-ordered duplicate-free list. -/
def difficultStep (E : Externals) (syllableThreshold : ℕ) (acc : List String)
    (word : String) : List String :=
  let normalized := presentTense E.dict (E.sing (jsLower word))
  if !E.dict normalized && syllableThreshold ≤ syllableCount E word then
    if word ∈ acc then acc else acc ++ [word]
  else acc

/-- Source `difficultWords(text, syllableThreshold = 2)` (lines 348-362);
the source default threshold is 2, callers here always pass it explicitly. -/
def difficultWords (E : Externals) (text : String) (syllableThreshold : ℕ) : ℕ :=
  ((diffWordTokens text).foldl (difficultStep E syllableThreshold) []).length

/-- Source `daleChallReadabilityScore(text)` (lines 369-379).  `count` is a
JS subtraction and may be negative, hence the cast through `ℚ`. -/
def daleChallReadabilityScore (E : Externals) (text : String) : JSNum :=
  let wordCount := lexiconCount text true
  let count : ℚ := (wordCount : ℚ) - (difficultWords E text 2 : ℚ)
  let per := jmul (jdiv (some count) (jn wordCount)) (jn 100)
  match per with
  | none => some 0
  | some p =>
    let dw : ℚ := 100 - p
    let score := jadd (jmul (jn 0.1579) (jn dw)) (jmul (jn 0.0496) (averageSentenceLength text))
    let score := if 5 < dw then jadd score (jn 3.6365) else score
    legacyRound score 2

/-- Source `daleChallToGrade(score)` (lines 386-394).  A `NaN` score fails
every comparison and falls through to `16`, as in JS. -/
def daleChallToGrade (score : JSNum) : ℚ :=
  if jleB score (jn 4.9) then 4
  else if jltB score (jn 5.9) then 5
  else if jltB score (jn 6.9) then 7
  else if jltB score (jn 7.9) then 9
  else if jltB score (jn 8.9) then 11
  else if jltB score (jn 9.9) then 13
  else 16

/-- Source `gunningFog(text)` (lines 401-406): uses syllable threshold 3. -/
def gunningFog (E : Externals) (text : String) : JSNum :=
  let perDiffWords := jmul (jdiv (jn (difficultWords E text 3)) (jn (lexiconCount text true))) (jn 100)
  nanGuard (legacyRound (jmul (jn 0.4) (jadd (averageSentenceLength text) perDiffWords)) 2)

/-- Source `lix(text)` (lines 413-421): long words are raw split tokens longer
than 6 characters; note the absence of an `isNaN` guard on the result. -/
def lix (text : String) : JSNum :=
  let words := splitWords text
  let wordsLen := words.length
  let longWords := (words.filter (fun wrd => 6 < wrd.length)).length
  let perLongWords := jdiv (jn (longWords * 100)) (jn wordsLen)
  legacyRound (jadd (averageSentenceLength text) perLongWords) 2

/-- Source `rix(text)` (lines 428-434): the `isNaN` test is applied to the
raw ratio, before `legacyRound` (so a ratio of `0` still becomes
`legacyRound(0, 2)`, which is `NaN`). -/
def rix (text : String) : JSNum :=
  let words := splitWords text
  let longWordsCount := (words.filter (fun wrd => 6 < wrd.length)).length
  let rixRatio := jdiv (jn longWordsCount) (jn (sentenceCount text))
  match rixRatio with
  | none => some 0
  | some r => legacyRound (some r) 2

/-- Source `getGradeSuffix(grade)` (lines 33-42): floor the grade and look it
up in `{1: 'st', 2: 'nd', 3: 'rd'}`, defaulting to `'th'` (a `NaN` grade
floors to `NaN`, misses the map, and yields `'th'`). -/
def getGradeSuffix (grade : JSNum) : String :=
  match jfloor grade with
  | some g => if g = 1 then "st" else if g = 2 then "nd" else if g = 3 then "rd" else "th"
  | none => "th"

/-- The 15-entry vote list built by `textStandard` (lines 442-491), in the
source's push order: floor/ceil pair for Flesch-Kincaid, the single
Flesch-RE grade, then floor/ceil pairs for SMOG, Coleman-Liau, ARI,
Dale-Chall grade, Linsear Write, and Gunning Fog.  Each pair is
`Math.floor(legacyRound(score))` and `Math.floor(Math.ceil(score))`. -/
def textStandardGrades (E : Externals) (text : String) : List JSNum :=
  [jfloor (legacyRound (fleschKincaidGrade E text) 0),
   jfloor (jceil (fleschKincaidGrade E text)),
   some (fleschReadingEaseToGrade (fleschReadingEase E text)),
   jfloor (legacyRound (smogIndex E text) 0),
   jfloor (jceil (smogIndex E text)),
   jfloor (legacyRound (colemanLiauIndex text) 0),
   jfloor (jceil (colemanLiauIndex text)),
   jfloor (legacyRound (automatedReadabilityIndex text) 0),
   jfloor (jceil (automatedReadabilityIndex text)),
   jfloor (legacyRound (jn (daleChallToGrade (daleChallReadabilityScore E text))) 0),
   jfloor (jceil (jn (daleChallToGrade (daleChallReadabilityScore E text)))),
   jfloor (legacyRound (linsearWriteFormula E text) 0),
   jfloor (jceil (linsearWriteFormula E text)),
   jfloor (legacyRound (gunningFog E text) 0),
   jfloor (jceil (gunningFog E text))]

/-- JS strict equality `===` on numbers: `NaN === NaN` is `false`. -/
def jseqB : JSNum → JSNum → Bool
  | some a, some b => a = b
  | _, _ => false

/-- Insertion-order deduplication, the semantics of `[...new Set(grade)]`
(SameValueZero equality, under which `NaN` equals `NaN`; on `Option ℚ` that
is plain equality). -/
def dedupSVZ (l : List JSNum) : List JSNum :=
  l.foldl (fun acc x => if x ∈ acc then acc else acc ++ [x]) []

/-- Source line 508: `[...new Set(grade)].map(x => [x, grade.filter(y => y ===
x).length])`. -/
def counterMap (g : List JSNum) : List (JSNum × ℕ) :=
  (dedupSVZ g).map (fun x => (x, (g.filter (fun y => jseqB y x)).length))

/-- Source line 509: `counterMap.reduce((x, y) => y[1] >= x[1] ? y : x)`
followed by taking the value component.  JS `reduce` without an initial value
throws on the empty array; that case is unreachable (the vote list always has
15 entries) and is mapped to `none`. -/
def modeReduce : List (JSNum × ℕ) → JSNum
  | [] => none
  | x :: xs => (xs.foldl (fun a b => if b.2 ≥ a.2 then b else a) x).1

/-- Source `textStandard(text, floatOutput)` (lines 442-515), the
`floatOutput = true` branch: the winning grade as a number.  (The string
branch formats the winner with `getGradeSuffix` and is not modeled.) -/
def textStandardFloat (E : Externals) (text : String) : JSNum :=
  modeReduce (counterMap (textStandardGrades E text))

/-- The comparator discipline of `grade.sort((a, b) => a - b)` as a
"stays-before" test for insertion: `y` stays before a later element `x` when
the comparator deems `y` less or equal — including the `NaN` case, where the
comparator returns `NaN`, which JS `sort` treats as `0` (equal), keeping the
stable order. -/
def jsKeepB : JSNum → JSNum → Bool
  | some a, some b => a ≤ b
  | _, _ => true

/-- Stable insertion of a later element after all kept earlier elements. -/
def jsInsert (x : JSNum) : List JSNum → List JSNum
  | [] => [x]
  | y :: ys => if jsKeepB y x then y :: jsInsert x ys else x :: y :: ys

/-- Stable ascending sort, the model of `grade.sort((a, b) => a - b)`
(stability is mandated by ECMAScript; on `NaN`-free inputs this is the unique
stable ascending order). -/
def jsSort (l : List JSNum) : List JSNum :=
  l.foldl (fun acc x => jsInsert x acc) []

/-- The 8-entry score list built by `textMedian` (lines 522-546), in push
order: Flesch-Kincaid, Flesch-RE grade, SMOG, Coleman-Liau, ARI, Dale-Chall
grade, Linsear Write, Gunning Fog. -/
def medianGrades (E : Externals) (text : String) : List JSNum :=
  [fleschKincaidGrade E text,
   some (fleschReadingEaseToGrade (fleschReadingEase E text)),
   smogIndex E text,
   colemanLiauIndex text,
   automatedReadabilityIndex text,
   some (daleChallToGrade (daleChallReadabilityScore E text)),
   linsearWriteFormula E text,
   gunningFog E text]

/-- Source `textMedian(text)` (lines 522-555): sort ascending, set
`half = floor(length / 2)`, and return the average of the two middle elements
when `half` is odd (`half & 0x1`), otherwise the single element at index
`half`.  Out-of-range indexing (JS `undefined`) is modeled as `none`. -/
def textMedian (E : Externals) (text : String) : JSNum :=
  let grade := jsSort (medianGrades E text)
  let half := grade.length / 2
  if (half &&& 1) ≠ 0 then
    jdiv (jadd (grade.getD (half - 1) none) (grade.getD half none)) (jn 2)
  else grade.getD half none

/-- Spec-side definition for the aggregator claim (spec section 4.6 step 1):
the floor-grade/ceiling-grade pair `floor(legacyRound(score))` and
`floor(ceil(score))` of one formula score. -/
def specVotePair (score : JSNum) : List JSNum :=
  [jfloor (legacyRound score 0), jfloor (jceil score)]

/-- Spec-side definition of the 15-entry vote multiset (spec section 4.6
step 1): a floor/ceil pair for each of the seven formulas Flesch-Kincaid,
SMOG, Coleman-Liau, ARI, Dale-Chall grade, Linsear Write and Gunning Fog,
plus the single Flesch-RE grade with no floor/ceil split.  The entries are
listed in the program's insertion order (source lines 442-491, which the
claim's tie-break clause refers to): the Flesch-RE grade is pushed right
after the Flesch-Kincaid pair. -/
def specVoteList (E : Externals) (text : String) : List JSNum :=
  specVotePair (fleschKincaidGrade E text) ++
  [some (fleschReadingEaseToGrade (fleschReadingEase E text))] ++
  specVotePair (smogIndex E text) ++
  specVotePair (colemanLiauIndex text) ++
  specVotePair (automatedReadabilityIndex text) ++
  specVotePair (jn (daleChallToGrade (daleChallReadabilityScore E text))) ++
  specVotePair (linsearWriteFormula E text) ++
  specVotePair (gunningFog E text)

/-- Spec-side definition of the consensus mode (spec section 4.6 step 2):
group the votes by value, count each distinct value's occurrences (JS `===`
counting, under which `NaN` matches nothing), then fold over the
distinct-value list in insertion order, replacing the running winner whenever
a candidate's count is greater than or equal to the current best — so ties go
to the value encountered later. -/
def specMode (votes : List JSNum) : JSNum :=
  let counted := (dedupSVZ votes).map
    (fun v => (v, (votes.filter (fun y => jseqB y v)).length))
  match counted with
  | [] => none
  | c :: cs => (cs.foldl (fun best cand => if cand.2 ≥ best.2 then cand else best) c).1

/-- Dictionary fixture for the normalizer theorems: a fixed easy-word set
containing `"like"` (per the claim) along with a few other short verbs; it
does not contain `"runne"` or `"eate"`. -/
def fixtureDict : String → Bool := fun w =>
  (["like", "force", "run", "eat", "swim"] : List String).contains w

/-- Trivial externals: syllable estimate 0 for everything, identity
singularization, empty dictionary.  Used for closed evaluations on inputs
whose code path never consults the externals. -/
def trivialExternals : Externals := ⟨fun _ => 0, id, fun _ => false⟩

/-- Externals where every word estimates to exactly 2 syllables (the
dictionary is empty and singularization is the identity).  Any real-world
2-syllable word absent from the easy-word list — e.g. "hello" — behaves this
way; used to separate syllable thresholds 2 and 3. -/
def twoSyllableExternals : Externals := ⟨fun _ => 2, id, fun _ => false⟩

/-! ## Helper lemmas

Evaluation lemmas for the JS-number operations (kernel reduction is not
available for concrete `ℚ` arithmetic, so concrete formula values are
computed by `simp`/`norm_num` through these lemmas). -/

theorem jadd_some_some (a b : ℚ) : jadd (some a) (some b) = some (a + b) := rfl

theorem jadd_none_left (x : JSNum) : jadd none x = none := by cases x <;> rfl

theorem jadd_none_right (x : JSNum) : jadd x none = none := by cases x <;> rfl

theorem jsub_some_some (a b : ℚ) : jsub (some a) (some b) = some (a - b) := rfl

theorem jsub_none_left (x : JSNum) : jsub none x = none := by cases x <;> rfl

theorem jsub_none_right (x : JSNum) : jsub x none = none := by cases x <;> rfl

theorem jmul_some_some (a b : ℚ) : jmul (some a) (some b) = some (a * b) := rfl

theorem jmul_none_left (x : JSNum) : jmul none x = none := by cases x <;> rfl

theorem jmul_none_right (x : JSNum) : jmul x none = none := by cases x <;> rfl

theorem jdiv_some_some (a b : ℚ) :
    jdiv (some a) (some b) = if b = 0 then none else some (a / b) := rfl

theorem jdiv_none_left (x : JSNum) : jdiv none x = none := by cases x <;> rfl

theorem jdiv_none_right (x : JSNum) : jdiv x none = none := by cases x <;> rfl

theorem jdiv_zero_denom (x : JSNum) : jdiv x (some 0) = none := by
  cases x <;> simp [jdiv]

theorem jfloor_some (a : ℚ) : jfloor (some a) = some ((⌊a⌋ : ℚ)) := rfl

theorem jceil_some (a : ℚ) : jceil (some a) = some ((⌈a⌉ : ℚ)) := rfl

theorem jabs_some (a : ℚ) : jabs (some a) = some |a| := rfl

theorem nanGuard_none : nanGuard none = some 0 := rfl

theorem nanGuard_some (a : ℚ) : nanGuard (some a) = some a := rfl

theorem copySign_zero_right (x : JSNum) : copySign x (some 0) = none := by
  cases x <;> simp [copySign, jabs, jdiv, jmul]

theorem copySign_none_right (x : JSNum) : copySign x none = none := by cases x <;> rfl

theorem copySign_of_pos (x y : ℚ) (hy : 0 < y) :
    copySign (some x) (some y) = some x := by
  have h0 : |y| ≠ 0 := abs_ne_zero.mpr hy.ne'
  simp only [copySign, jabs_some, jdiv_some_some, if_neg h0, jmul_some_some]
  rw [abs_of_pos hy, div_self hy.ne', mul_one]

theorem copySign_of_neg (x y : ℚ) (hy : y < 0) :
    copySign (some x) (some y) = some (-x) := by
  have h0 : |y| ≠ 0 := abs_ne_zero.mpr hy.ne
  simp only [copySign, jabs_some, jdiv_some_some, if_neg h0, jmul_some_some]
  rw [abs_of_neg hy, div_neg, div_self hy.ne, mul_neg, mul_one]

theorem legacyRound_none (n : ℕ) : legacyRound none n = none := rfl

theorem legacyRound_some_zero (n : ℕ) : legacyRound (some 0) n = none := by
  simp [legacyRound, copySign_zero_right, jadd_none_right, jmul_some_some,
    jfloor, jdiv]

theorem tenPow_ne_zero (n : ℕ) : ((10 : ℚ) ^ n) ≠ 0 := by positivity

theorem legacyRound_pos (q : ℚ) (n : ℕ) (hq : 0 < q) :
    legacyRound (some q) n = some ((⌊q * 10 ^ n + 1/2⌋ : ℚ) / 10 ^ n) := by
  simp only [legacyRound, jmul_some_some, copySign_of_pos _ _ hq, jadd_some_some,
    jfloor_some, jdiv_some_some, if_neg (tenPow_ne_zero n)]

theorem legacyRound_neg (q : ℚ) (n : ℕ) (hq : q < 0) :
    legacyRound (some q) n = some ((⌊q * 10 ^ n - 1/2⌋ : ℚ) / 10 ^ n) := by
  simp only [legacyRound, jmul_some_some, copySign_of_neg _ _ hq, jadd_some_some,
    jfloor_some, jdiv_some_some, if_neg (tenPow_ne_zero n)]
  rw [sub_eq_add_neg]

theorem jsInsert_length (x : JSNum) (l : List JSNum) :
    (jsInsert x l).length = l.length + 1 := by
  induction l with
  | nil => rfl
  | cons y ys ih =>
    simp only [jsInsert]
    by_cases h : jsKeepB y x
    · simp [h, ih]
    · simp [h]

theorem jsSort_length (l : List JSNum) : (jsSort l).length = l.length := by
  suffices h : ∀ acc : List JSNum,
      (l.foldl (fun acc x => jsInsert x acc) acc).length = acc.length + l.length by
    simpa using h []
  induction l with
  | nil => intro acc; simp
  | cons y ys ih =>
    intro acc
    simp only [List.foldl_cons, ih, jsInsert_length, List.length_cons]
    omega

theorem length_filter_le_add_gt (l : List String) :
    (l.filter (fun s => lexiconCount s true ≤ 2)).length +
      (l.filter (fun s => 2 < lexiconCount s true)).length = l.length := by
  induction l with
  | nil => rfl
  | cons s ss ih =>
    by_cases h : lexiconCount s true ≤ 2
    · have h' : ¬ 2 < lexiconCount s true := by omega
      simp [List.filter_cons, h, h', ih]
      omega
    · have h' : 2 < lexiconCount s true := by omega
      simp [List.filter_cons, h, h', ih]
      omega

/-! ## C7: sentence count is always at least 1 -/

/-- C7: for every text (including empty text and text whose every segment has
word count at most 2), `sentenceCount(text) >= 1`; it counts the split
segments whose word count exceeds 2 and floors the result at 1. -/
theorem C7_sentenceCount_ge_one (text : String) :
    1 ≤ sentenceCount text ∧
      sentenceCount text =
        max 1 ((splitSentences text).filter (fun s => 2 < lexiconCount s true)).length := by
  have hsplit := length_filter_le_add_gt (splitSentences text)
  have hvalid : (splitSentences text).length -
      ((splitSentences text).filter (fun s => lexiconCount s true ≤ 2)).length =
      ((splitSentences text).filter (fun s => 2 < lexiconCount s true)).length := by
    omega
  simp only [sentenceCount]
  rw [hvalid]
  constructor
  · split <;> omega
  · rcases Nat.lt_or_ge 1 ((splitSentences text).filter (fun s => 2 < lexiconCount s true)).length
      with h | h
    · rw [if_pos h, max_eq_right (by omega)]
    · rw [if_neg (by omega), max_eq_left h]

/-- Witness for C7 at a concrete input: the empty string. -/
theorem C7_witness :
    1 ≤ sentenceCount "" ∧
      sentenceCount "" =
        max 1 ((splitSentences "").filter (fun s => 2 < lexiconCount s true)).length :=
  C7_sentenceCount_ge_one ""

/-! ## C8: ordinal grade suffix -/

/-- C8: `getGradeSuffix` floors its argument and returns `"st"`, `"nd"`,
`"rd"` only for the literal floored values 1, 2, 3 and `"th"` for every
other integer, in particular at 1, 2, 3, 4 and 21. -/
theorem C8_getGradeSuffix (g : ℤ) (h1 : g ≠ 1) (h2 : g ≠ 2) (h3 : g ≠ 3) :
    getGradeSuffix (some ((g : ℚ))) = "th" ∧
      getGradeSuffix (some 1) = "st" ∧ getGradeSuffix (some 2) = "nd" ∧
      getGradeSuffix (some 3) = "rd" ∧ getGradeSuffix (some 4) = "th" ∧
      getGradeSuffix (some 21) = "th" := by
  refine ⟨?_, rfl, rfl, rfl, rfl, rfl⟩
  simp only [getGradeSuffix, jfloor, Int.floor_intCast]
  rw [if_neg, if_neg, if_neg]
  · exact_mod_cast h3
  · exact_mod_cast h2
  · exact_mod_cast h1

/-- Witness for C8 at the concrete integer 22 (whose suffix should be "nd"
in correct English, but the code yields "th"). -/
theorem C8_witness :
    (22 : ℤ) ≠ 1 ∧ (22 : ℤ) ≠ 2 ∧ (22 : ℤ) ≠ 3 ∧
      getGradeSuffix (some ((22 : ℤ) : ℚ)) = "th" :=
  ⟨by decide, by decide, by decide, (C8_getGradeSuffix 22 (by decide) (by decide) (by decide)).1⟩

/-! ## C9: punctuation stripping merges comma-separated words -/

/-- C9: the punctuation class contains the comma, so `lexiconCount` with
`removePunctuation = true` collapses `"a,b"` into a single token while
`lexiconCount("a,b", false)` sees two. -/
theorem C9_lexiconCount_comma :
    lexiconCount "a,b" true = 1 ∧ lexiconCount "a,b" false = 2 ∧
      isPunctChar ',' = true ∧ isSplitDelim ',' = true := by
  decide

/-! ## C10: legacyRound(0, n) is NaN, guarded away by the averages -/

/-- C10: for every precision `n`, `legacyRound(0, n)` is NaN (because
`copySign(0.5, 0)` divides zero by zero), and the average-based metric
primitives still return 0.0 on the degenerate empty input only because of
their `isNaN` guard applied after rounding. -/
theorem C10_legacyRound_zero_nan (E : Externals) (n : ℕ) :
    legacyRound (some 0) n = none ∧
      copySign (some (1/2)) (some 0) = none ∧
      averageSentenceLength "" = some 0 ∧
      averageCharacterPerWord "" = some 0 ∧
      averageLetterPerWord "" = some 0 ∧
      averageSentencePerWord "" = some 0 ∧
      averageSyllablePerWord E "" = some 0 := by
  have hlex : lexiconCount "" true = 0 := by decide
  have hsen : sentenceCount "" = 1 := by decide
  have hchar : charCount "" true = 0 := by decide
  have hlet : letterCount "" true = 0 := by decide
  have hre : removePunctuation (jsLower "") = "" := by decide
  have hsyl : syllableCount E "" = 0 := by simp [syllableCount, hre]
  refine ⟨legacyRound_some_zero n, copySign_zero_right _, ?_, ?_, ?_, ?_, ?_⟩
  · simp [averageSentenceLength, hlex, hsen, jn, jdiv_some_some,
      legacyRound_some_zero, nanGuard]
  · simp [averageCharacterPerWord, hchar, hlex, jn, jdiv_zero_denom,
      legacyRound_none, nanGuard]
  · simp [averageLetterPerWord, hlet, hlex, jn, jdiv_zero_denom,
      legacyRound_none, nanGuard]
  · simp [averageSentencePerWord, hsen, hlex, jn, jdiv_zero_denom,
      legacyRound_none, nanGuard]
  · simp [averageSyllablePerWord, hsyl, hlex, jn, jdiv_zero_denom,
      legacyRound_none, nanGuard]

/-! ## C4: difficultWords versus the syllable threshold -/

/-- The per-token difficulty condition of `difficultWords`: the normalized form
is not an easy word and the original token estimates at least `t` syllables. -/
def diffCond (E : Externals) (t : ℕ) (w : String) : Bool :=
  !E.dict (presentTense E.dict (E.sing (jsLower w))) && t ≤ syllableCount E w

theorem difficultStep_eq (E : Externals) (t : ℕ) (acc : List String) (w : String) :
    difficultStep E t acc w =
      if diffCond E t w then (if w ∈ acc then acc else acc ++ [w]) else acc := rfl

theorem mem_difficultStep (E : Externals) (t : ℕ) (acc : List String) (w x : String) :
    x ∈ difficultStep E t acc w ↔ x ∈ acc ∨ (x = w ∧ diffCond E t w) := by
  rw [difficultStep_eq]
  by_cases hc : diffCond E t w
  · rw [if_pos hc]
    by_cases hw : w ∈ acc
    · rw [if_pos hw]
      constructor
      · exact fun h => Or.inl h
      · rintro (h | ⟨rfl, _⟩)
        · exact h
        · exact hw
    · rw [if_neg hw]
      constructor
      · intro h
        rcases List.mem_append.mp h with h' | h'
        · exact Or.inl h'
        · exact Or.inr ⟨List.mem_singleton.mp h', hc⟩
      · rintro (h | ⟨rfl, _⟩)
        · exact List.mem_append.mpr (Or.inl h)
        · exact List.mem_append.mpr (Or.inr (List.mem_singleton.mpr rfl))
  · rw [if_neg hc]
    constructor
    · exact fun h => Or.inl h
    · rintro (h | ⟨rfl, hcw⟩)
      · exact h
      · exact absurd hcw hc

theorem mem_difficultFold (E : Externals) (t : ℕ) (ts : List String) :
    ∀ (acc : List String) (x : String),
      x ∈ ts.foldl (difficultStep E t) acc ↔ x ∈ acc ∨ (x ∈ ts ∧ diffCond E t x) := by
  induction ts with
  | nil => intro acc x; simp
  | cons w ws ih =>
    intro acc x
    rw [List.foldl_cons, ih]
    constructor
    · rintro (h | ⟨hmem, hcond⟩)
      · rcases (mem_difficultStep E t acc w x).mp h with h' | ⟨rfl, hcw⟩
        · exact Or.inl h'
        · exact Or.inr ⟨List.mem_cons_self _ _, hcw⟩
      · exact Or.inr ⟨List.mem_cons_of_mem _ hmem, hcond⟩
    · rintro (h | ⟨hmem, hcond⟩)
      · exact Or.inl ((mem_difficultStep E t acc w x).mpr (Or.inl h))
      · rcases List.mem_cons.mp hmem with heq | h'
        · exact Or.inl ((mem_difficultStep E t acc _ x).mpr (Or.inr ⟨heq, heq ▸ hcond⟩))
        · exact Or.inr ⟨h', hcond⟩

theorem nodup_difficultFold (E : Externals) (t : ℕ) (ts : List String) :
    ∀ acc : List String, acc.Nodup → (ts.foldl (difficultStep E t) acc).Nodup := by
  induction ts with
  | nil => intro acc h; exact h
  | cons w ws ih =>
    intro acc h
    rw [List.foldl_cons]
    apply ih
    rw [difficultStep_eq]
    by_cases hc : diffCond E t w
    · by_cases hw : w ∈ acc
      · simpa [hc, hw] using h
      · simp only [hc, if_true, hw, if_false]
        simp [List.nodup_append, h, hw]
    · simpa [hc] using h

/-- C4 counterexample: with a syllable estimator assigning 2 syllables to
every word (as any real estimator does for "hello") and an empty dictionary,
`difficultWords("hello", 2) = 1 > 0 = difficultWords("hello", 3)`: the count
is not non-decreasing in the threshold. -/
theorem C4_counterexample :
    difficultWords twoSyllableExternals "hello" 2 = 1 ∧
      difficultWords twoSyllableExternals "hello" 3 = 0 ∧
      ¬ difficultWords twoSyllableExternals "hello" 2 ≤
          difficultWords twoSyllableExternals "hello" 3 := by
  refine ⟨by decide, by decide, ?_⟩
  intro h
  exact absurd h (by decide)

/-- C4 (amended): for every fixed text and externals, `difficultWords` is
non-increasing in the syllable threshold — raising the threshold can only
remove words from the difficult set, never add them. -/
theorem C4_difficultWords_antitone (E : Externals) (text : String) (t₁ t₂ : ℕ)
    (h : t₁ ≤ t₂) : difficultWords E text t₂ ≤ difficultWords E text t₁ := by
  unfold difficultWords
  have h₁ : ((diffWordTokens text).foldl (difficultStep E t₁) []).Nodup :=
    nodup_difficultFold E t₁ _ [] List.nodup_nil
  have h₂ : ((diffWordTokens text).foldl (difficultStep E t₂) []).Nodup :=
    nodup_difficultFold E t₂ _ [] List.nodup_nil
  have hsub : ((diffWordTokens text).foldl (difficultStep E t₂) []) ⊆
      ((diffWordTokens text).foldl (difficultStep E t₁) []) := by
    intro x hx
    rcases (mem_difficultFold E t₂ _ [] x).mp hx with h' | ⟨hmem, hcond⟩
    · simp at h'
    · refine (mem_difficultFold E t₁ _ [] x).mpr (Or.inr ⟨hmem, ?_⟩)
      unfold diffCond at hcond ⊢
      rw [Bool.and_eq_true] at hcond ⊢
      exact ⟨hcond.1, decide_eq_true (le_trans h (of_decide_eq_true hcond.2))⟩
  rw [← List.toFinset_card_of_nodup h₁, ← List.toFinset_card_of_nodup h₂]
  apply Finset.card_le_card
  intro a ha
  rw [List.mem_toFinset] at ha ⊢
  exact hsub ha

/-- Witness for C4's amended monotonicity statement at a concrete input. -/
theorem C4_witness :
    2 ≤ 3 ∧ difficultWords twoSyllableExternals "hello" 3 ≤
        difficultWords twoSyllableExternals "hello" 2 :=
  ⟨by decide, C4_difficultWords_antitone twoSyllableExternals "hello" 2 3 (by decide)⟩

/-! ## C5: legacyRound rounding behavior -/

/-- C5 counterexample: `legacyRound` is not idempotent at the same precision.
`legacyRound(-2.345, 2) = -2.35`, but rounding that result again gives
`-2.36` (the floor of `-235.5` is `-236`), so re-rounding changes the value. -/
theorem C5_counterexample :
    legacyRound (some (-2.345 : ℚ)) 2 = some (-2.35) ∧
      legacyRound (legacyRound (some (-2.345 : ℚ)) 2) 2 = some (-2.36) ∧
      legacyRound (legacyRound (some (-2.345 : ℚ)) 2) 2 ≠
        legacyRound (some (-2.345 : ℚ)) 2 := by
  have h1 : legacyRound (some (-2.345 : ℚ)) 2 = some (-2.35 : ℚ) := by
    rw [legacyRound_neg _ _ (by norm_num)]
    have harg : (-2.345 : ℚ) * 10 ^ 2 - 1/2 = ((-235 : ℤ) : ℚ) := by norm_num
    rw [harg, Int.floor_intCast]
    norm_num
  have h2 : legacyRound (some (-2.35 : ℚ)) 2 = some (-2.36 : ℚ) := by
    rw [legacyRound_neg _ _ (by norm_num)]
    have harg : (-2.35 : ℚ) * 10 ^ 2 - 1/2 = (-471/2 : ℚ) := by norm_num
    have hfl : ⌊(-471/2 : ℚ)⌋ = -236 := by
      apply Int.floor_eq_iff.mpr
      constructor <;> norm_num
    rw [harg, hfl]
    norm_num
  refine ⟨h1, by rw [h1, h2], ?_⟩
  rw [h1, h2]
  simp only [ne_eq, Option.some.injEq]
  norm_num

/-- C5 (amended): `legacyRound(x, n)` scales by `10^n`, adds `sign(x)*0.5`,
floors and divides back (for nonzero finite `x`); it satisfies the
round-half-away-from-zero examples `legacyRound(2.345, 2) = 2.35` and
`legacyRound(-2.345, 2) = -2.35` under the exact-rational semantics; and it is
idempotent at the same precision only when the rounded numerator is positive
(for negative values, re-rounding subtracts one unit in the last place, and a
zero value rounds to `NaN`). -/
theorem C5_legacyRound_amended :
    (∀ x : ℚ, x ≠ 0 → ∀ n : ℕ, legacyRound (some x) n =
        some ((⌊x * 10 ^ n + (if 0 < x then (1 : ℚ)/2 else -(1/2))⌋ : ℚ) / 10 ^ n)) ∧
      legacyRound (some (2.345 : ℚ)) 2 = some 2.35 ∧
      legacyRound (some (-2.345 : ℚ)) 2 = some (-2.35) ∧
      (∀ x : ℚ, ∀ n : ℕ, 0 < ⌊x * 10 ^ n + 1/2⌋ →
        legacyRound (legacyRound (some x) n) n = legacyRound (some x) n) := by
  refine ⟨?_, ?_, ?_, ?_⟩
  · intro x hx n
    rcases hx.lt_or_lt with h | h
    · rw [legacyRound_neg x n h, if_neg (not_lt.mpr h.le), ← sub_eq_add_neg]
    · rw [legacyRound_pos x n h, if_pos h]
  · rw [legacyRound_pos _ _ (by norm_num)]
    have harg : (2.345 : ℚ) * 10 ^ 2 + 1/2 = ((235 : ℤ) : ℚ) := by norm_num
    rw [harg, Int.floor_intCast]
    norm_num
  · rw [legacyRound_neg _ _ (by norm_num)]
    have harg : (-2.345 : ℚ) * 10 ^ 2 - 1/2 = ((-235 : ℤ) : ℚ) := by norm_num
    rw [harg, Int.floor_intCast]
    norm_num
  · intro x n hk
    have hx : 0 < x := by
      by_contra hx
      push_neg at hx
      have hmul : x * 10 ^ n ≤ 0 :=
        mul_nonpos_iff.mpr (Or.inr ⟨hx, by positivity⟩)
      have hle : x * 10 ^ n + 1/2 ≤ 1/2 := by linarith
      have h2 : ⌊x * 10 ^ n + 1/2⌋ ≤ ⌊(1/2 : ℚ)⌋ := Int.floor_le_floor hle
      have h3 : ⌊(1/2 : ℚ)⌋ = 0 := by
        apply Int.floor_eq_iff.mpr
        constructor <;> norm_num
      omega
    rw [legacyRound_pos x n hx]
    have hkq : (0 : ℚ) < (⌊x * 10 ^ n + 1/2⌋ : ℚ) / 10 ^ n := by
      apply div_pos _ (by positivity)
      exact_mod_cast hk
    rw [legacyRound_pos _ n hkq]
    have hcancel : ((⌊x * 10 ^ n + 1/2⌋ : ℚ) / 10 ^ n) * 10 ^ n =
        ((⌊x * 10 ^ n + 1/2⌋ : ℤ) : ℚ) := div_mul_cancel₀ _ (tenPow_ne_zero n)
    rw [hcancel, Int.floor_int_add]
    have h3 : ⌊(1/2 : ℚ)⌋ = 0 := by
      apply Int.floor_eq_iff.mpr
      constructor <;> norm_num
    rw [h3, add_zero]

/-- Witness for C5's amended statement at `x = 2.345`, `n = 2`: both the
nonzero hypothesis of the sign-characterization and the positive-floor
hypothesis of the idempotence part are discharged concretely. -/
theorem C5_witness :
    ((2.345 : ℚ) ≠ 0 ∧ legacyRound (some (2.345 : ℚ)) 2 =
        some ((⌊(2.345 : ℚ) * 10 ^ 2 + (if 0 < (2.345 : ℚ) then (1 : ℚ)/2 else -(1/2))⌋ : ℚ) / 10 ^ 2)) ∧
      (0 < ⌊(2.345 : ℚ) * 10 ^ 2 + 1/2⌋ ∧
        legacyRound (legacyRound (some (2.345 : ℚ)) 2) 2 = legacyRound (some (2.345 : ℚ)) 2) := by
  have hfl : (0 : ℤ) < ⌊(2.345 : ℚ) * 10 ^ 2 + 1/2⌋ := by
    have harg : (2.345 : ℚ) * 10 ^ 2 + 1/2 = ((235 : ℤ) : ℚ) := by norm_num
    rw [harg, Int.floor_intCast]
    norm_num
  exact ⟨⟨by norm_num, C5_legacyRound_amended.1 2.345 (by norm_num) 2⟩,
    ⟨hfl, C5_legacyRound_amended.2.2.2 2.345 2 hfl⟩⟩

/-! ## C6: the present-tense normalizer -/

/-- C6: against a dictionary fixture containing `"like"` (and `"run"`,
`"eat"`, `"force"`, but not `"runne"` or `"eate"`), the code returns
`presentTense("running") = "runn"` — not `"run"` as its own doc comment and
the spec state — because the `"ing"` branch appends `"e"` (not in the
dictionary) and otherwise drops only the suffix; and `presentTense("liked")`
returns `"liked"` unchanged — never reaching the dictionary-aware `"ed"`
branch — because `"liked"` has fewer than 6 characters.  `"eating"` and
`"forcing"` behave as specified. -/
theorem C6_presentTense_behavior :
    presentTense fixtureDict "running" = "runn" ∧
      presentTense fixtureDict "liked" = "liked" ∧
      presentTense fixtureDict "eating" = "eat" ∧
      presentTense fixtureDict "forcing" = "force" ∧
      fixtureDict "like" = true ∧ fixtureDict "run" = true ∧
      fixtureDict "runne" = false ∧ fixtureDict "eate" = false := by
  decide

/-! ## C1: degenerate-input behavior of the ratio formulas -/

theorem asl_degenerate (text : String) (hlex : lexiconCount text true = 0)
    (hsen : sentenceCount text = 1) : averageSentenceLength text = some 0 := by
  simp [averageSentenceLength, hlex, hsen, jn, jdiv_some_some,
    legacyRound_some_zero, nanGuard]

theorem asw_degenerate (E : Externals) (text : String)
    (hlex : lexiconCount text true = 0) : averageSyllablePerWord E text = some 0 := by
  simp [averageSyllablePerWord, hlex, jn, jdiv_zero_denom, legacyRound_none, nanGuard]

theorem gunningFog_degenerate (E : Externals) (text : String)
    (hlex : lexiconCount text true = 0) (hdw : diffWordTokens text = []) :
    gunningFog E text = some 0 := by
  have hdw3 : difficultWords E text 3 = 0 := by simp [difficultWords, hdw]
  simp [gunningFog, hdw3, hlex, jn, jdiv_zero_denom, jmul_none_left,
    jmul_none_right, jadd_none_right, legacyRound_none, nanGuard]

theorem daleChall_degenerate (E : Externals) (text : String)
    (hlex : lexiconCount text true = 0) (hdw : diffWordTokens text = []) :
    daleChallReadabilityScore E text = some 0 := by
  have hdw2 : difficultWords E text 2 = 0 := by simp [difficultWords, hdw]
  simp [daleChallReadabilityScore, hdw2, hlex, jn, jdiv_zero_denom, jmul_none_left]

theorem fre_degenerate (E : Externals) (text : String)
    (hlex : lexiconCount text true = 0) (hsen : sentenceCount text = 1) :
    fleschReadingEase E text = some (5171/25) := by
  have h1 := asl_degenerate text hlex hsen
  have h2 := asw_degenerate E text hlex
  simp only [fleschReadingEase, h1, h2, jn, jmul_some_some, mul_zero, jsub_some_some, sub_zero]
  rw [legacyRound_pos _ _ (by norm_num)]
  have harg : (206.835 : ℚ) * 10 ^ 2 + 1/2 = ((20684 : ℤ) : ℚ) := by norm_num
  rw [harg, Int.floor_intCast]
  norm_num

theorem cl_degenerate (text : String) (hlex : lexiconCount text true = 0) :
    colemanLiauIndex text = none := by
  have h1 : averageLetterPerWord text = some 0 := by
    simp [averageLetterPerWord, hlex, jn, jdiv_zero_denom, legacyRound_none, nanGuard]
  have h2 : averageSentencePerWord text = some 0 := by
    simp [averageSentencePerWord, hlex, jn, jdiv_zero_denom, legacyRound_none, nanGuard]
  simp [colemanLiauIndex, h1, h2, jmul_some_some, zero_mul, legacyRound_some_zero,
    jmul_none_right, jsub_none_left, legacyRound_none, jn]

theorem lix_degenerate (text : String) (hsw : splitWords text = []) :
    lix text = none := by
  simp [lix, hsw, jn, jdiv_zero_denom, jadd_none_right, legacyRound_none]

theorem rix_degenerate (text : String) (hsw : splitWords text = [])
    (hsen : sentenceCount text = 1) : rix text = none := by
  simp [rix, hsw, hsen, jn, jdiv_some_some, legacyRound_some_zero]

/-- C1 counterexample: on the empty input, `fleschReadingEase` returns
`206.84` (the rounded constant term of its formula — not `0.0`), and
`colemanLiauIndex`, `lix` and `rix` all return `NaN` (`legacyRound` maps both
`0` and `NaN` to `NaN`, and these three formulas have no — or a misplaced —
`isNaN` guard). -/
theorem C1_counterexample :
    fleschReadingEase trivialExternals "" = some (5171/25) ∧
      (5171/25 : ℚ) ≠ 0 ∧
      colemanLiauIndex "" = none ∧ lix "" = none ∧ rix "" = none := by
  refine ⟨fre_degenerate _ _ (by decide) (by decide), by norm_num,
    cl_degenerate _ (by decide), lix_degenerate _ (by decide),
    rix_degenerate _ (by decide) (by decide)⟩

/-- C1 (amended): on empty or whitespace-only input, the ratio formulas with
a final `isNaN` guard — `gunningFog` and `daleChallReadabilityScore` (and the
average primitives) — return `0.0`, but `fleschReadingEase` returns `206.84`,
and `colemanLiauIndex`, `lix` and `rix` return `NaN`, whatever the external
syllable estimator, singularizer and dictionary are. -/
theorem C1_ratio_formulas_degenerate (E : Externals) :
    (gunningFog E "" = some 0 ∧ daleChallReadabilityScore E "" = some 0 ∧
      fleschReadingEase E "" = some (5171/25) ∧
      colemanLiauIndex "" = none ∧ lix "" = none ∧ rix "" = none) ∧
    (gunningFog E " " = some 0 ∧ daleChallReadabilityScore E " " = some 0 ∧
      fleschReadingEase E " " = some (5171/25) ∧
      colemanLiauIndex " " = none ∧ lix " " = none ∧ rix " " = none) := by
  refine ⟨⟨?_, ?_, ?_, ?_, ?_, ?_⟩, ⟨?_, ?_, ?_, ?_, ?_, ?_⟩⟩
  · exact gunningFog_degenerate E _ (by decide) (by decide)
  · exact daleChall_degenerate E _ (by decide) (by decide)
  · exact fre_degenerate E _ (by decide) (by decide)
  · exact cl_degenerate _ (by decide)
  · exact lix_degenerate _ (by decide)
  · exact rix_degenerate _ (by decide) (by decide)
  · exact gunningFog_degenerate E _ (by decide) (by decide)
  · exact daleChall_degenerate E _ (by decide) (by decide)
  · exact fre_degenerate E _ (by decide) (by decide)
  · exact cl_degenerate _ (by decide)
  · exact lix_degenerate _ (by decide)
  · exact rix_degenerate _ (by decide) (by decide)

/-! ## Fidelity of the SMOG value and tokenizer sanity checks -/

theorem floor_sqrt_add_div (a c m : ℕ) (hm : 0 < m) :
    ⌊((Real.sqrt a + c) / m : ℝ)⌋ = ((Nat.sqrt a + c) / m : ℕ) := by
  have hS1 : ((Nat.sqrt a : ℝ)) ≤ Real.sqrt a := Real.nat_sqrt_le_real_sqrt
  have hS2 : Real.sqrt a < (Nat.sqrt a : ℝ) + 1 := Real.real_sqrt_lt_nat_sqrt_succ
  have hmR : (0:ℝ) < m := by positivity
  have hK1 : ((Nat.sqrt a + c) / m) * m ≤ Nat.sqrt a + c := Nat.div_mul_le_self _ _
  have hK2 : Nat.sqrt a + c < ((Nat.sqrt a + c) / m + 1) * m :=
    (Nat.div_lt_iff_lt_mul hm).mp (Nat.lt_succ_self _)
  apply Int.floor_eq_iff.mpr
  constructor
  · rw [le_div_iff₀ hmR]
    have h1 : ((((Nat.sqrt a + c) / m) * m : ℕ) : ℝ) ≤ ((Nat.sqrt a + c : ℕ) : ℝ) := by
      exact_mod_cast hK1
    rw [Int.cast_natCast]
    push_cast at h1
    linarith
  · rw [div_lt_iff₀ hmR]
    have h2 : ((Nat.sqrt a + c + 1 : ℕ) : ℝ) ≤ ((((Nat.sqrt a + c) / m + 1) * m : ℕ) : ℝ) := by
      exact_mod_cast hK2
    rw [Int.cast_natCast]
    push_cast at h2
    linarith

/-- Fidelity of `smogVal` to the source expression
`legacyRound(1.043 * (30 * (p / s)) ** 0.5 + 3.1291, 1)` under exact real
semantics: the computable integer-square-root formulation equals the real
floor of ten times the SMOG expression plus one half (the `copySign`
contribution is `+0.5` because the expression is at least `3.1291 > 0`),
divided back by ten. -/
theorem smogVal_eq_floor (p s : ℕ) (hs : 0 < s) :
    ((smogVal p s : ℚ) : ℝ) =
      (⌊((1.043 * Real.sqrt (30 * p / s) + 3.1291) * 10 + 1/2 : ℝ)⌋ : ℝ) / 10 := by
  have hsR : (0:ℝ) < (s:ℝ) := by positivity
  have hM : ((100 * (1087849 * 30 * p * s) : ℕ) : ℝ) =
      ((10430 * (s:ℝ)))^2 * (30 * p / s) := by
    push_cast
    field_simp
    ring
  have hsqrt : Real.sqrt ((100 * (1087849 * 30 * p * s) : ℕ) : ℝ) =
      10430 * (s:ℝ) * Real.sqrt (30 * p / s) := by
    rw [hM, Real.sqrt_mul (by positivity), Real.sqrt_sq (by positivity)]
  have hexpr : ((1.043 * Real.sqrt (30 * p / s) + 3.1291) * 10 + 1/2 : ℝ) =
      (Real.sqrt ((100 * (1087849 * 30 * p * s) : ℕ) : ℝ) + ((31791 * s : ℕ) : ℝ)) /
        ((1000 * s : ℕ) : ℝ) := by
    rw [hsqrt]
    push_cast
    field_simp
    ring
  rw [hexpr, floor_sqrt_add_div _ _ _ (Nat.mul_pos (by norm_num) hs)]
  unfold smogVal
  rw [Int.cast_natCast, Rat.cast_div, Rat.cast_natCast]
  norm_num

/-- End-to-end tokenizer facts from the spec (section 8): the sample sentence
has one sentence and five words, and a three-sentence paragraph splits into
its three segments and counts three sentences. -/
theorem tokenizer_examples :
    sentenceCount "This is a sample text." = 1 ∧
      lexiconCount "This is a sample text." true = 5 ∧
      splitSentences "One two three four. Two other words here! Three more words again." =
        ["One two three four", "Two other words here", "Three more words again."] ∧
      sentenceCount "One two three four. Two other words here! Three more words again." = 3 := by
  decide

/-! ## C2: the textStandard vote multiset and mode -/

/-- C2: for every text (and any externals), `textStandard` builds a vote list
of exactly 15 entries — `floor(legacyRound(score))` and `floor(ceil(score))`
for each of the seven formulas plus the single Flesch-RE grade — and its
`floatOutput` result is the mode of that multiset computed by the
`≥`-replacing fold over the distinct-value list in insertion order; on a
synthetic tie (two values with count 2 each) the later-inserted value wins. -/
theorem specMode_eq_modeReduce (l : List JSNum) :
    specMode l = modeReduce (counterMap l) := rfl

theorem C2_textStandard_mode (E : Externals) (text : String) :
    (specVoteList E text).length = 15 ∧
      textStandardFloat E text = specMode (specVoteList E text) ∧
      specMode [jn 7, jn 7, jn 9, jn 9] = jn 9 := by
  have hv : specVoteList E text = textStandardGrades E text := by
    simp [specVoteList, specVotePair, textStandardGrades]
  refine ⟨by rw [hv]; simp [textStandardGrades], ?_, by decide⟩
  rw [hv, specMode_eq_modeReduce]
  rfl

/-! ## C3: the textMedian index rule -/

/-- C3: for every text (and any externals), `textMedian` collects exactly 8
scores, `half = floor(8/2) = 4` is even, and the result is always the single
element at sorted index 4 — the 5th smallest — never an average of two middle
elements. -/
theorem C3_textMedian_index (E : Externals) (text : String) :
    (medianGrades E text).length = 8 ∧
      textMedian E text = (jsSort (medianGrades E text)).getD 4 none := by
  have hlen : (jsSort (medianGrades E text)).length = 8 := by
    rw [jsSort_length]; rfl
  refine ⟨rfl, ?_⟩
  simp only [textMedian, hlen]
  norm_num

end TextReadability
